import Mathlib

/-!
Verification development for the Chit-Chat repository.

The repository ships the smoke-test suite for the room/session engine, a
status aggregator (`status-aggregator.js`), a frontend configuration file and
the avatar/name generation utilities.  The room/session core itself (the
socket handlers for `room:join`, `message:send`, `member:promote`,
`member:kick`, `room:start`, `room:close`, `room:rejoin`) is not part of the
shipped sources, only its tests and its specification; those operations are
therefore modelled from the spec below, while `fetchServerInfo`,
`handleStatus` and `generateNameOptions` are shallow embeddings of the
shipped JavaScript.
-/

namespace ChitChat

/-- Room lifecycle status, `waiting → chatting → closed` (spec §4.1). -/
inductive Status where
  | waiting
  | chatting
  | closed
deriving DecidableEq

/-- Member role (spec §3). -/
inductive Role where
  | admin
  | participant
deriving DecidableEq

/-- Modelled from the spec: a Member record (spec §3).  Member ids are opaque
and never reissued; we embed them as natural numbers drawn from the room's
fresh-id counter. -/
structure Member where
  id : Nat
  displayName : String
  avatarGlyph : String
  role : Role
  attached : Bool
deriving DecidableEq

/-- Modelled from the spec: a chat Message (spec §3). -/
structure Message where
  seq : Nat
  authorMemberId : Nat
  content : String
  clientMsgId : Option String
deriving DecidableEq

/-- Modelled from the spec: the per-room state (spec §3): lifecycle status,
membership, the monotonic sequence counter (starts at 0), the bounded recent
history and the dedup index mapping clientMsgId to the previously assigned
sequence number.  `nextId` is the fresh member-id supply (ids are opaque and
never reissued). -/
structure Room where
  status : Status
  members : List Member
  nextId : Nat
  seqCounter : Nat
  recentHistory : List Message
  dedupIndex : List (String × Nat)
deriving DecidableEq

/-- Acknowledgement payload of a directed call (spec §6): `ok:false` replies
carry `error`; `ok:true` replies carry the operation's result fields. -/
structure Reply where
  ok : Bool
  error : Option String
  memberId : Option Nat
  seq : Option Nat
  duplicate : Option Bool
deriving DecidableEq

/-- An `ok:false` reply with a reason. -/
def Reply.mkErr (e : String) : Reply := ⟨false, some e, none, none, none⟩

/-- The `ok:true` reply of a successful join, carrying the member id. -/
def Reply.okJoin (mid : Nat) : Reply := ⟨true, none, some mid, none, none⟩

/-- The bare `ok:true` reply of start/close/promote/kick. -/
def Reply.okSimple : Reply := ⟨true, none, none, none, none⟩

/-- The `ok:true` reply of a send, carrying `seq` and the duplicate flag. -/
def Reply.okSend (s : Nat) (dup : Bool) : Reply := ⟨true, none, none, some s, some dup⟩

/-- Room-broadcast events (spec §6). -/
inductive Broadcast where
  | memberJoined (memberId : Nat)
  | roomMembers (ids : List Nat)
  | roomStarted
  | messageReceived (msg : Message)
  | memberPromoted (memberId : Nat)
  | memberKicked (memberId : Nat)
  | roomClosed (reason : String)
deriving DecidableEq

/-- Result of one directed call: the acknowledgement reply, the post-state of
the room and the broadcasts fanned out to the room. -/
structure OpResult where
  reply : Reply
  room : Room
  broadcasts : List Broadcast
deriving DecidableEq

/-- Ids of the members currently in the registry. -/
def idsOf (l : List Member) : List Nat := l.map Member.id

/-- Number of members currently holding the admin role. -/
def adminCount (r : Room) : Nat :=
  r.members.countP (fun m => decide (m.role = Role.admin))

/-- Whether `mid` is a current member holding the admin role. -/
def isAdmin (r : Room) (mid : Nat) : Bool :=
  r.members.any (fun m => decide (m.id = mid ∧ m.role = Role.admin))

/-- Whether `mid` is a current member of the room. -/
def hasMember (r : Room) (mid : Nat) : Bool :=
  r.members.any (fun m => decide (m.id = mid))

/-- Whether `mid` is a current member with an attached connection. -/
def memberAttachedB (r : Room) (mid : Nat) : Bool :=
  r.members.any (fun m => decide (m.id = mid ∧ m.attached = true))

/-- Display-name bound (spec §4.2: reject above 99 characters). -/
def NAME_MAX : Nat := 99

/-- Message-text bound (spec §4.3: reject above 2000 characters). -/
def TEXT_MAX : Nat := 2000

/-- Modelled from the spec: capacity of the bounded recent-history window
("last-N messages"); the exact size is unspecified in the spec. -/
def HISTORY_CAP : Nat := 50

/-- Whether a text trims to the empty string, i.e. consists entirely of
whitespace (the embedding of `text.trim() === ''`). -/
def isBlank (s : String) : Bool :=
  s.data.all (fun ch => decide (ch = ' ' ∨ ch = '\t' ∨ ch = '\n' ∨ ch = '\r'))

/-- The role assigned by a successful join: `admin` exactly when the caller
is the creator and no admin yet exists (spec §4.2). -/
def joinRole (r : Room) (isCreator : Bool) : Role :=
  if isCreator = true ∧ adminCount r = 0 then Role.admin else Role.participant

/-- Modelled from the spec: `join` (spec §4.2, the `room:join` handler, which
is absent from the shipped sources).  Validates the display-name length
(`NameTooLong` above the fixed bound), rejects closed rooms (`RoomClosed`;
unknown-room lookup is outside this per-room model), assigns `role=admin`
exactly when the caller is the creator and no admin yet exists, appends the
new member with a fresh id and broadcasts `member:joined` and
`room:members`. -/
def join (r : Room) (displayName avatarGlyph : String) (isCreator : Bool) : OpResult :=
  if NAME_MAX < displayName.length then ⟨Reply.mkErr "NameTooLong", r, []⟩
  else if r.status = Status.closed then ⟨Reply.mkErr "RoomClosed", r, []⟩
  else
    let m : Member := ⟨r.nextId, displayName, avatarGlyph, joinRole r isCreator, true⟩
    let r2 : Room := { r with members := r.members ++ [m], nextId := r.nextId + 1 }
    ⟨Reply.okJoin r.nextId, r2, [Broadcast.memberJoined r.nextId, Broadcast.roomMembers (idsOf r2.members)]⟩

/-- Modelled from the spec: `start` (spec §4.1, the `room:start` handler,
absent from the shipped sources).  Fails `NotAuthorized` unless the caller is
the current admin, fails `InvalidState` unless the room is `waiting`, and on
success transitions to `chatting` and broadcasts `room:started`. -/
def start (r : Room) (caller : Nat) : OpResult :=
  if isAdmin r caller = false then ⟨Reply.mkErr "NotAuthorized", r, []⟩
  else if r.status ≠ Status.waiting then ⟨Reply.mkErr "InvalidState", r, []⟩
  else ⟨Reply.okSimple, { r with status := Status.chatting }, [Broadcast.roomStarted]⟩

/-- Modelled from the spec: `close` (spec §4.1, the `room:close` handler,
absent from the shipped sources).  Fails `NotAuthorized` unless admin,
allowed from any non-terminal state; transitions to `closed`, removes the
members (spec §3: members are removed on room closure) and broadcasts
`room:closed{reason}`. -/
def close (r : Room) (caller : Nat) (reason : String) : OpResult :=
  if isAdmin r caller = false then ⟨Reply.mkErr "NotAuthorized", r, []⟩
  else if r.status = Status.closed then ⟨Reply.mkErr "InvalidState", r, []⟩
  else ⟨Reply.okSimple, { r with status := Status.closed, members := [] }, [Broadcast.roomClosed reason]⟩

/-- Role reassignment applied to each member by a successful promote:
the target becomes admin and the caller becomes participant. -/
def promoteMap (caller target : Nat) (m : Member) : Member :=
  if m.id = target then { m with role := Role.admin }
  else if m.id = caller then { m with role := Role.participant }
  else m

/-- Modelled from the spec: `promote` (spec §4.2, the `member:promote`
handler, absent from the shipped sources).  Fails `NotAuthorized` unless the
caller is the current admin, fails `MemberNotFound` if the target is absent;
on success the target's role becomes admin and the caller's becomes
participant (a transfer), and `member:promoted` is broadcast. -/
def promote (r : Room) (caller target : Nat) : OpResult :=
  if isAdmin r caller = false then ⟨Reply.mkErr "NotAuthorized", r, []⟩
  else if hasMember r target = false then ⟨Reply.mkErr "MemberNotFound", r, []⟩
  else ⟨Reply.okSimple, { r with members := r.members.map (promoteMap caller target) },
        [Broadcast.memberPromoted target]⟩

/-- Modelled from the spec: `kick` (spec §4.2, the `member:kick` handler,
absent from the shipped sources).  Fails `NotAuthorized` unless admin, fails
`MemberNotFound` if the target is absent; removes the target from the
registry and broadcasts `member:kicked`. -/
def kick (r : Room) (caller target : Nat) : OpResult :=
  if isAdmin r caller = false then ⟨Reply.mkErr "NotAuthorized", r, []⟩
  else if hasMember r target = false then ⟨Reply.mkErr "MemberNotFound", r, []⟩
  else ⟨Reply.okSimple, { r with members := r.members.filter (fun m => decide (m.id ≠ target)) },
        [Broadcast.memberKicked target]⟩

/-- Append a message to the bounded recent-history window, evicting the
oldest entries once the capacity is exceeded (spec §4.3 step 5). -/
def pushHistory (l : List Message) (msg : Message) : List Message :=
  let l2 := l ++ [msg]
  if HISTORY_CAP < l2.length then l2.drop (l2.length - HISTORY_CAP) else l2

/-- Lookup of a clientMsgId in the per-room dedup index. -/
def dedupLookup (l : List (String × Nat)) (c : String) : Option Nat :=
  (l.find? (fun p => decide (p.1 = c))).map Prod.snd

/-- The non-duplicate path of `send`: atomically increment the sequence
counter, build the message with the new `seq`, append it to the bounded
history, record the dedup mapping when a clientMsgId was supplied and
broadcast `message:received`. -/
def sendFresh (r : Room) (mid : Nat) (text : String) (cid : Option String) : OpResult :=
  let s := r.seqCounter + 1
  let msg : Message := ⟨s, mid, text, cid⟩
  ⟨Reply.okSend s false,
   { r with seqCounter := s,
            recentHistory := pushHistory r.recentHistory msg,
            dedupIndex := match cid with
                          | some c => r.dedupIndex ++ [(c, s)]
                          | none => r.dedupIndex },
   [Broadcast.messageReceived msg]⟩

/-- The dedup dispatch of `send` (spec §4.3 step 4): a clientMsgId already
seen for this room resolves to the previously assigned `seq` with
`duplicate=true`, with no mutation and no re-broadcast; otherwise the fresh
path runs. -/
def sendDedup (r : Room) (mid : Nat) (text : String) (cid : Option String) : OpResult :=
  match cid with
  | some c =>
    match dedupLookup r.dedupIndex c with
    | some s => ⟨Reply.okSend s true, r, []⟩
    | none => sendFresh r mid text (some c)
  | none => sendFresh r mid text none

/-- Modelled from the spec: `send` (spec §4.3, the `message:send` handler,
absent from the shipped sources).  Steps, in the spec's order: `NotInRoom`
unless the sender is an attached member; `RoomNotChatting` unless the status
is `chatting`; `MessageEmpty` if the text trims to empty; `MessageTooLong`
above the fixed bound; then the dedup dispatch. -/
def send (r : Room) (mid : Nat) (text : String) (cid : Option String) : OpResult :=
  if memberAttachedB r mid = false then ⟨Reply.mkErr "NotInRoom", r, []⟩
  else if r.status ≠ Status.chatting then ⟨Reply.mkErr "RoomNotChatting", r, []⟩
  else if isBlank text = true then ⟨Reply.mkErr "MessageEmpty", r, []⟩
  else if TEXT_MAX < text.length then ⟨Reply.mkErr "MessageTooLong", r, []⟩
  else sendDedup r mid text cid

/-- Outcome of `room:rejoin`, delivered as an event to the caller only. -/
inductive RejoinEvent where
  | joined (roomId : String) (recent : List Message)
  | rejoinFailed (reason : String)
deriving DecidableEq

/-- Modelled from the spec: `rejoin` (spec §4.4, the `room:rejoin` handler,
absent from the shipped sources).  If the room is closed or expired the
caller gets `room:rejoin-failed` with a closure reason; if the member id is
unknown, `room:rejoin-failed` with a not-found reason; otherwise the
connection is reattached to the existing member (no new Member is created)
and the caller alone receives `room:joined{ok:true, roomId, recent}` with
the bounded recent history. -/
def rejoin (r : Room) (roomId : String) (mid : Nat) : RejoinEvent × Room :=
  if r.status = Status.closed then (RejoinEvent.rejoinFailed "RoomClosedOrExpired", r)
  else if hasMember r mid = true then
    (RejoinEvent.joined roomId r.recentHistory,
     { r with members := r.members.map (fun m => if m.id = mid then { m with attached := true } else m) })
  else (RejoinEvent.rejoinFailed "MemberNotFound", r)

/-- A directed call at the boundary (spec §6), one constructor per acked
operation. -/
inductive Call where
  | join (displayName avatarGlyph : String) (isCreator : Bool)
  | start (caller : Nat)
  | close (caller : Nat) (reason : String)
  | promote (caller target : Nat)
  | kick (caller target : Nat)
  | send (mid : Nat) (text : String) (cid : Option String)

/-- Dispatch a directed call to its handler. -/
def applyCall (r : Room) : Call → OpResult
  | Call.join n a c => join r n a c
  | Call.start c => start r c
  | Call.close c reason => close r c reason
  | Call.promote c t => promote r c t
  | Call.kick c t => kick r c t
  | Call.send m t cid => send r m t cid

/-- The state of a freshly provisioned room: `waiting`, no members, sequence
counter 0, empty history and dedup index (spec §3). -/
def roomInit : Room := ⟨Status.waiting, [], 0, 0, [], []⟩

/-- Room states reachable from a freshly provisioned room by directed calls
and rejoins. -/
inductive Reachable : Room → Prop where
  | init : Reachable roomInit
  | stepCall (r : Room) (c : Call) : Reachable r → Reachable (applyCall r c).room
  | stepRejoin (r : Room) (rid : String) (mid : Nat) :
      Reachable r → Reachable (rejoin r rid mid).2

/-- Order embedding of the one-way lifecycle `waiting → chatting → closed`. -/
def statusRank : Status → Nat
  | Status.waiting => 0
  | Status.chatting => 1
  | Status.closed => 2

/-- One request of the messaging pipeline, for replaying send sequences. -/
structure SendReq where
  memberId : Nat
  text : String
  clientMsgId : Option String
deriving DecidableEq

/-- Replay a list of send requests against a room, collecting the replies in
order. -/
def runSends (r : Room) : List SendReq → List Reply × Room
  | [] => ([], r)
  | req :: rest =>
    let res := send r req.memberId req.text req.clientMsgId
    ((res.reply :: (runSends res.room rest).1), (runSends res.room rest).2)

/-- The sequence numbers assigned to the non-duplicate successful sends of a
reply list, in reply order. -/
def newSeqs (rs : List Reply) : List Nat :=
  rs.filterMap (fun rep =>
    if rep.ok = true ∧ rep.duplicate = some false then rep.seq else none)

-- ==========================================================================
-- Status aggregator (embedded from `status-aggregator.js`)
-- ==========================================================================

/-- One backend server entry parsed from `BACKEND_SERVERS`
(`status-aggregator.js`, `parseBackends`). -/
structure Backend where
  id : String
  host : String
  port : Nat
deriving DecidableEq

/-- The fields of a backend's `/api/server-info` response that the
aggregator reads (`status-aggregator.js`); every field may be missing from
the parsed JSON. -/
structure BackendReport where
  serverId : Option String := none
  status : Option String := none
  error : Option String := none
  uptime : Option Nat := none
  memory : Option Nat := none
  redisConnected : Option Bool := none
  redisLatency : Option Nat := none
  clients : Option Nat := none
  rooms : Option Nat := none
deriving DecidableEq

/-- The ways the HTTP request issued by `fetchServerInfo` can conclude: the
3-second timer fires first, the request errors, or the response body arrives
and either fails or succeeds JSON parsing. -/
inductive ReqOutcome where
  | timeout
  | connError
  | response (parsed : Option BackendReport)
deriving DecidableEq

/-- Embedding of `fetchServerInfo` (`status-aggregator.js` lines 878-907):
the promise executor resolves — never rejects — on every path; `none` would
mean the promise is left unsettled, and no path produces it. -/
def fetchServerInfo (b : Backend) : ReqOutcome → Option BackendReport
  | ReqOutcome.timeout =>
      some { serverId := some b.id, status := some "unreachable", error := some "timeout" }
  | ReqOutcome.connError =>
      some { serverId := some b.id, status := some "unreachable", error := some "connection failed" }
  | ReqOutcome.response none =>
      some { serverId := some b.id, status := some "error", error := some "invalid response" }
  | ReqOutcome.response (some v) => some v

/-- The aggregate fields computed by `handleStatus` that the claims are
about. -/
structure AggregateStatus where
  status : String
  healthyBackends : Nat
  totalBackends : Nat
  totalClients : Nat
deriving DecidableEq

/-- Embedding of the aggregation in `handleStatus` (`status-aggregator.js`
lines 919-963): count the backends reporting `status === 'healthy'`, sum the
`clients` fields with missing values as 0, start the overall status at
`'healthy'`, downgrade to `'down'` when no backend is healthy, to
`'degraded'` when some but not all are, and force `'down'` whenever nginx is
not active. -/
def handleStatus (bs : List BackendReport) (nginxActive : Bool) : AggregateStatus :=
  let healthy := bs.countP (fun b => decide (b.status = some "healthy"))
  let clients := bs.foldl (fun sum b => sum + b.clients.getD 0) 0
  let overall0 := "healthy"
  let overall1 := if healthy = 0 then "down"
                  else if healthy < bs.length then "degraded" else overall0
  let overall2 := if nginxActive = false then "down" else overall1
  ⟨overall2, healthy, bs.length, clients⟩

-- ==========================================================================
-- Name generation (embedded from the avatar/name utilities source)
-- ==========================================================================

/-- The fixed adjective list of the name generator. -/
def ADJECTIVES : List String :=
  ["Happy", "Clever", "Swift", "Brave", "Calm", "Bright", "Cool", "Wild",
   "Gentle", "Bold", "Quick", "Wise", "Lucky", "Jolly", "Merry", "Quiet",
   "Eager", "Fancy", "Noble", "Proud", "Sharp", "Smart", "Sunny", "Witty"]

/-- The fixed noun list of the name generator. -/
def NOUNS : List String :=
  ["Panda", "Tiger", "Eagle", "Dolphin", "Fox", "Wolf", "Bear", "Lion",
   "Owl", "Hawk", "Koala", "Otter", "Raven", "Falcon", "Lynx", "Penguin",
   "Phoenix", "Dragon", "Unicorn", "Griffin", "Turtle", "Rabbit", "Deer", "Cat"]

/-- Embedding of `generateRandomName`: `Math.floor(Math.random() * len)`
yields an in-range index into each list, so the random draws are embedded as
a pair of in-range indices. -/
def generateRandomName (a : Fin ADJECTIVES.length) (n : Fin NOUNS.length) : String :=
  ADJECTIVES.get a ++ " " ++ NOUNS.get n

/-- The JS `Set.add` on an insertion-ordered list: append the element unless
it is already present. -/
def setAdd (names : List String) (x : String) : List String :=
  if x ∈ names then names else names ++ [x]

/-- The retry loop of `generateNameOptions`: while the set holds fewer than
`count` names and attempts remain, draw one more random name.  The remaining
attempts (`maxAttempts - attempts`) are the structural fuel; `rand` supplies
the random draws of each attempt. -/
def genLoop (rand : Nat → Fin ADJECTIVES.length × Fin NOUNS.length) (count : Nat) :
    Nat → Nat → List String → List String
  | 0, _, names => names
  | fuel + 1, attempts, names =>
    if names.length < count then
      genLoop rand count fuel (attempts + 1)
        (setAdd names (generateRandomName (rand attempts).1 (rand attempts).2))
    else names

/-- Embedding of `generateNameOptions`: run the retry loop with
`maxAttempts = count * 3` starting from the empty set. -/
def generateNameOptions (rand : Nat → Fin ADJECTIVES.length × Fin NOUNS.length)
    (count : Nat) : List String :=
  genLoop rand count (count * 3) 0 []

-- ==========================================================================
-- Concrete rooms and inputs used by the witnesses
-- ==========================================================================

/-- A chatting room with an attached admin (id 0) and an attached
participant (id 1), as produced by the smoke-test flow after create, two
joins and `room:start`. -/
def demoRoom : Room :=
  ⟨Status.chatting,
   [⟨0, "AdminUser", "crown", Role.admin, true⟩,
    ⟨1, "MemberUser", "person", Role.participant, true⟩],
   2, 0, [], []⟩

/-- A closed room (post `room:close`: members removed). -/
def closedRoom : Room := ⟨Status.closed, [], 2, 3, [], []⟩

/-- A send workload: a plain send, an idempotent send, its duplicate retry
and an invalid (blank) send. -/
def demoReqs : List SendReq :=
  [⟨0, "Hello from smoke test!", none⟩,
   ⟨0, "Idempotent message", some "smoke-1"⟩,
   ⟨0, "Idempotent message duplicate", some "smoke-1"⟩,
   ⟨1, " ", none⟩]

/-- A 2001-character message text, as in the smoke test's too-long send. -/
def longText : String := String.mk (List.replicate 2001 'x')

/-- A 100-character display name, as in the smoke test's too-long join. -/
def longName : String := String.mk (List.replicate 100 'x')

/-- A constant random supply for evaluating the name generator. -/
def rand0 : Nat → Fin ADJECTIVES.length × Fin NOUNS.length :=
  fun _ => (⟨0, by decide⟩, ⟨0, by decide⟩)

/-- The fresh room after its creator joined (smoke-test flow step 1). -/
def roomA : Room := (applyCall roomInit (Call.join "AdminUser" "crown" true)).room

/-- The room after a second, non-creator member joined (smoke-test flow
step 2): member 0 is the admin, member 1 a participant. -/
def roomAB : Room := (applyCall roomA (Call.join "MemberUser" "person" false)).room

/-- The per-room state invariant maintained by every operation: at most one
admin, a closed room has no members, member ids are pairwise distinct, and
all ids are below the fresh-id supply. -/
def RoomInv (r : Room) : Prop :=
  adminCount r ≤ 1 ∧
  (r.status = Status.closed → r.members = []) ∧
  (idsOf r.members).Nodup ∧
  (∀ m ∈ r.members, m.id < r.nextId)

-- ==========================================================================
-- Counting helpers
-- ==========================================================================

/-- Two distinct elements both satisfying `p` force a `countP` of at least
two. -/
theorem two_le_countP {α : Type} (p : α → Bool) (l : List α) (a b : α)
    (ha : a ∈ l) (hb : b ∈ l) (hab : a ≠ b) (hpa : p a = true) (hpb : p b = true) :
    2 ≤ l.countP p := by
  induction l with
  | nil => cases ha
  | cons x t ih =>
    rw [List.countP_cons]
    rcases List.mem_cons.mp ha with rfl | hat
    · have hbt : b ∈ t := by
        rcases List.mem_cons.mp hb with rfl | hmem
        · exact absurd rfl hab
        · exact hmem
      have hpos : 0 < t.countP p := List.countP_pos_iff.mpr ⟨b, hbt, hpb⟩
      simp only [hpa, if_true]
      omega
    · rcases List.mem_cons.mp hb with rfl | hbt
      · have hpos : 0 < t.countP p := List.countP_pos_iff.mpr ⟨a, hat, hpa⟩
        simp only [hpb, if_true]
        omega
      · have := ih hat hbt
        omega

/-- With pairwise distinct member ids, at most one member carries any given
id. -/
theorem countP_id_le_one (l : List Member) (t : Nat) (h : (idsOf l).Nodup) :
    l.countP (fun m => decide (m.id = t)) ≤ 1 := by
  induction l with
  | nil => simp [List.countP_nil]
  | cons m tl ih =>
    rw [List.countP_cons]
    simp only [idsOf, List.map_cons, List.nodup_cons] at h
    by_cases hm : m.id = t
    · have hz : tl.countP (fun x => decide (x.id = t)) = 0 := by
        apply List.countP_eq_zero.mpr
        intro x hx
        simp only [decide_eq_true_eq]
        intro hxt
        apply h.1
        have hmem : x.id ∈ List.map Member.id tl := List.mem_map_of_mem Member.id hx
        rwa [hxt, ← hm] at hmem
      simp [hm, hz]
    · have htl := ih h.2
      simp [hm]
      omega

/-- With pairwise distinct member ids, a present id is carried by exactly one
member. -/
theorem countP_id_eq_one (l : List Member) (t : Nat) (h : (idsOf l).Nodup)
    (ht : ∃ m ∈ l, m.id = t) :
    l.countP (fun m => decide (m.id = t)) = 1 := by
  have h1 := countP_id_le_one l t h
  have h2 : 0 < l.countP (fun m => decide (m.id = t)) := by
    rcases ht with ⟨m, hm, hid⟩
    exact List.countP_pos_iff.mpr ⟨m, hm, by simp [hid]⟩
  omega

/-- When at most one member is admin and `mc` is an admin member, every
admin member carries `mc`'s id. -/
theorem admin_id_unique (l : List Member)
    (hle : l.countP (fun m => decide (m.role = Role.admin)) ≤ 1)
    (mc : Member) (hmc : mc ∈ l) (hmcadm : mc.role = Role.admin)
    (m : Member) (hm : m ∈ l) (hmadm : m.role = Role.admin) : m.id = mc.id := by
  by_cases heq : m = mc
  · rw [heq]
  · have h2 := two_le_countP (fun m => decide (m.role = Role.admin)) l m mc hm hmc heq
      (by simp [hmadm]) (by simp [hmcadm])
    omega

-- ==========================================================================
-- C7: join display-name validation
-- ==========================================================================

/-- C7: `join` rejects with `NameTooLong` exactly when the display name
exceeds the fixed bound of 99 characters; in particular a display name of
100 or more characters fails (`ok:false`), leaves the room unchanged and
creates no member. -/
theorem join_name_validation (r : Room) (n a : String) (ic : Bool) :
    ((join r n a ic).reply.error = some "NameTooLong" ↔ NAME_MAX < n.length) ∧
    (100 ≤ n.length →
      (join r n a ic).reply.ok = false ∧ (join r n a ic).room = r) := by
  have hiff : (join r n a ic).reply.error = some "NameTooLong" ↔ NAME_MAX < n.length := by
    unfold join
    by_cases h1 : NAME_MAX < n.length
    · rw [if_pos h1]
      exact iff_of_true rfl h1
    · rw [if_neg h1]
      by_cases h2 : r.status = Status.closed
      · rw [if_pos h2]
        exact iff_of_false (by simp [Reply.mkErr]) h1
      · rw [if_neg h2]
        exact iff_of_false (by simp [Reply.okJoin]) h1
  refine ⟨hiff, fun hlen => ?_⟩
  have h1 : NAME_MAX < n.length := by unfold NAME_MAX; omega
  unfold join
  rw [if_pos h1]
  exact ⟨rfl, rfl⟩

/-- C7 witness: the smoke test's 100-character user name is rejected with
`NameTooLong` and no member is created, while the room stays unchanged. -/
theorem join_name_validation_witness :
    (join demoRoom longName "g" false).reply.error = some "NameTooLong" ∧
    (join demoRoom longName "g" false).reply.ok = false ∧
    (join demoRoom longName "g" false).room = demoRoom := by
  have h := join_name_validation demoRoom longName "g" false
  have hlen : 100 ≤ longName.length := by
    simp [longName, String.length]
  exact ⟨h.1.mpr (by simpa [NAME_MAX] using hlen), (h.2 hlen).1, (h.2 hlen).2⟩

-- ==========================================================================
-- C6: totality of the call boundary and of fetchServerInfo
-- ==========================================================================

/-- C6: every path of `fetchServerInfo` (timeout, connection error, invalid
response, success) resolves the promise, and every directed call at the call
boundary replies either `ok:true` or `ok:false` with a reason — there is no
third, unreported failure path. -/
theorem call_totality :
    (∀ (b : Backend) (o : ReqOutcome), (fetchServerInfo b o).isSome = true) ∧
    (∀ (r : Room) (c : Call), (applyCall r c).reply.ok = true ∨
      ((applyCall r c).reply.ok = false ∧ ((applyCall r c).reply.error).isSome = true)) := by
  constructor
  · intro b o
    rcases o with _ | _ | p
    · rfl
    · rfl
    · rcases p with _ | v <;> rfl
  · intro r c
    rcases c with ⟨n, a, ic⟩ | cal | ⟨cal, reason⟩ | ⟨cal, t⟩ | ⟨cal, t⟩ | ⟨mid, t, cid⟩
    · simp only [applyCall]
      unfold join
      split_ifs <;> simp [Reply.mkErr, Reply.okJoin, apply_ite]
    · simp only [applyCall]
      unfold start
      split_ifs <;> simp [Reply.mkErr, Reply.okSimple, apply_ite]
    · simp only [applyCall]
      unfold close
      split_ifs <;> simp [Reply.mkErr, Reply.okSimple, apply_ite]
    · simp only [applyCall]
      unfold promote
      split_ifs <;> simp [Reply.mkErr, Reply.okSimple, apply_ite]
    · simp only [applyCall]
      unfold kick
      split_ifs <;> simp [Reply.mkErr, Reply.okSimple, apply_ite]
    · simp only [applyCall]
      unfold send
      split_ifs <;> try simp [Reply.mkErr, Reply.okSend, sendFresh, apply_ite]
      rcases cid with _ | cl
      · simp [sendDedup, sendFresh, Reply.okSend]
      · rcases hdl : dedupLookup r.dedupIndex cl with _ | s <;>
          simp [sendDedup, hdl, sendFresh, Reply.okSend]

-- ==========================================================================
-- C10: status aggregation
-- ==========================================================================

/-- Folding `+ clients` from an arbitrary accumulator equals the accumulator
plus the sum of the clients fields. -/
theorem foldl_clients_eq_sum (l : List BackendReport) :
    ∀ acc : Nat, l.foldl (fun sum b => sum + b.clients.getD 0) acc
      = acc + (l.map (fun b => b.clients.getD 0)).sum := by
  induction l with
  | nil => intro acc; simp
  | cons b tl ih =>
    intro acc
    simp only [List.foldl_cons, List.map_cons, List.sum_cons]
    rw [ih]
    omega

/-- C10: the aggregator reports `down` whenever nginx is inactive; with
nginx active it reports `down` when no backend is healthy, `degraded` when
some but not all are, and `healthy` when all of at least one backend are;
and `totalClients` is the sum of the backends' `clients` fields with missing
fields counted as 0. -/
theorem handleStatus_spec (bs : List BackendReport) (nginx : Bool) :
    (nginx = false → (handleStatus bs nginx).status = "down") ∧
    (nginx = true →
      (bs.countP (fun b => decide (b.status = some "healthy")) = 0 →
        (handleStatus bs nginx).status = "down") ∧
      (0 < bs.countP (fun b => decide (b.status = some "healthy")) →
        bs.countP (fun b => decide (b.status = some "healthy")) < bs.length →
        (handleStatus bs nginx).status = "degraded") ∧
      (bs ≠ [] →
        bs.countP (fun b => decide (b.status = some "healthy")) = bs.length →
        (handleStatus bs nginx).status = "healthy")) ∧
    (handleStatus bs nginx).totalClients
      = (bs.map (fun b => b.clients.getD 0)).sum := by
  refine ⟨?_, ?_, ?_⟩
  · intro h
    simp [handleStatus, h]
  · intro h
    refine ⟨?_, ?_, ?_⟩
    · intro h0
      simp [handleStatus, h, h0]
    · intro hpos hlt
      simp [handleStatus, h, Nat.pos_iff_ne_zero.mp hpos, hlt]
    · intro hne hall
      have hlen : 0 < bs.length := List.length_pos.mpr hne
      simp [handleStatus, h, hall, Nat.pos_iff_ne_zero.mp hlen]
  · simpa [handleStatus] using foldl_clients_eq_sum bs 0

/-- C10 witness: with nginx active, one healthy and one unreachable backend
aggregate to `degraded`, and the client total adds the reported fields with
the missing one as 0; with nginx stopped the status is `down`. -/
theorem handleStatus_spec_witness :
    (handleStatus [{ serverId := some "vm1", status := some "healthy", clients := some 7 },
                   { serverId := some "vm2", status := some "unreachable" }] true).status
      = "degraded" ∧
    (handleStatus [{ serverId := some "vm1", status := some "healthy", clients := some 7 },
                   { serverId := some "vm2", status := some "unreachable" }] true).totalClients = 7 ∧
    (handleStatus [{ serverId := some "vm1", status := some "healthy", clients := some 7 }] false).status
      = "down" := by
  refine ⟨?_, ?_, ?_⟩
  · exact ((handleStatus_spec _ true).2.1 rfl).2.1 (by decide) (by decide)
  · have h := (handleStatus_spec
      [{ serverId := some "vm1", status := some "healthy", clients := some 7 },
       { serverId := some "vm2", status := some "unreachable" }] true).2.2
    rw [h]
    decide
  · exact (handleStatus_spec _ false).1 rfl

-- ==========================================================================
-- C9: name generation
-- ==========================================================================

/-- Set-semantics insertion preserves distinctness. -/
theorem setAdd_nodup (names : List String) (x : String) (h : names.Nodup) :
    (setAdd names x).Nodup := by
  unfold setAdd
  split_ifs with hmem
  · exact h
  · simpa [List.nodup_append, h] using hmem

/-- Set-semantics insertion grows the set by at most one element. -/
theorem setAdd_length_le (names : List String) (x : String) :
    (setAdd names x).length ≤ names.length + 1 := by
  unfold setAdd
  split_ifs <;> simp

/-- Set-semantics insertion never shrinks the set. -/
theorem setAdd_length_ge (names : List String) (x : String) :
    names.length ≤ (setAdd names x).length := by
  unfold setAdd
  split_ifs <;> simp

/-- Every element after a set-semantics insertion was present before or is
the inserted one. -/
theorem setAdd_mem (names : List String) (x y : String) (hy : y ∈ setAdd names x) :
    y ∈ names ∨ y = x := by
  unfold setAdd at hy
  split_ifs at hy with hmem
  · exact Or.inl hy
  · rcases List.mem_append.mp hy with hl | hr
    · exact Or.inl hl
    · exact Or.inr (List.mem_singleton.mp hr)

/-- The retry loop preserves distinctness of the accumulated names. -/
theorem genLoop_nodup (rand : Nat → Fin ADJECTIVES.length × Fin NOUNS.length)
    (count : Nat) :
    ∀ (fuel attempts : Nat) (names : List String), names.Nodup →
      (genLoop rand count fuel attempts names).Nodup := by
  intro fuel
  induction fuel with
  | zero => intro attempts names h; simpa [genLoop] using h
  | succ k ih =>
    intro attempts names h
    simp only [genLoop]
    split_ifs with hlt
    · exact ih (attempts + 1) _ (setAdd_nodup names _ h)
    · exact h

/-- The retry loop never accumulates more than `count` names. -/
theorem genLoop_length_le (rand : Nat → Fin ADJECTIVES.length × Fin NOUNS.length)
    (count : Nat) :
    ∀ (fuel attempts : Nat) (names : List String), names.length ≤ count →
      (genLoop rand count fuel attempts names).length ≤ count := by
  intro fuel
  induction fuel with
  | zero => intro attempts names h; simpa [genLoop] using h
  | succ k ih =>
    intro attempts names h
    simp only [genLoop]
    split_ifs with hlt
    · have hs := setAdd_length_le names
        (generateRandomName (rand attempts).1 (rand attempts).2)
      exact ih (attempts + 1) _ (by omega)
    · exact h

/-- The retry loop never drops an accumulated name. -/
theorem genLoop_length_ge (rand : Nat → Fin ADJECTIVES.length × Fin NOUNS.length)
    (count : Nat) :
    ∀ (fuel attempts : Nat) (names : List String),
      names.length ≤ (genLoop rand count fuel attempts names).length := by
  intro fuel
  induction fuel with
  | zero => intro attempts names; simp [genLoop]
  | succ k ih =>
    intro attempts names
    simp only [genLoop]
    split_ifs with hlt
    · have h1 := setAdd_length_ge names
        (generateRandomName (rand attempts).1 (rand attempts).2)
      have h2 := ih (attempts + 1)
        (setAdd names (generateRandomName (rand attempts).1 (rand attempts).2))
      omega
    · exact Nat.le_refl _

/-- Every name produced by the retry loop satisfies any property enjoyed by
the seed names and by every random draw. -/
theorem genLoop_mem (rand : Nat → Fin ADJECTIVES.length × Fin NOUNS.length)
    (count : Nat) (P : String → Prop)
    (hgen : ∀ (a : Fin ADJECTIVES.length) (n : Fin NOUNS.length),
      P (generateRandomName a n)) :
    ∀ (fuel attempts : Nat) (names : List String), (∀ x ∈ names, P x) →
      ∀ x ∈ genLoop rand count fuel attempts names, P x := by
  intro fuel
  induction fuel with
  | zero => intro attempts names h; simpa [genLoop] using h
  | succ k ih =>
    intro attempts names h
    simp only [genLoop]
    split_ifs with hlt
    · refine ih (attempts + 1) _ (fun x hx => ?_)
      rcases setAdd_mem names _ x hx with hold | hnew
      · exact h x hold
      · rw [hnew]; exact hgen _ _
    · exact h

/-- C9: for every `count ≥ 1` and every sequence of random draws,
`generateNameOptions` (whose retry loop is bounded by `count * 3` attempts,
the structural fuel of the embedding) draws from the fixed 24-element
adjective and noun lists and returns pairwise-distinct names of the form
`"<Adjective> <Noun>"`, at least 1 and at most `count` of them. -/
theorem name_options_spec (rand : Nat → Fin ADJECTIVES.length × Fin NOUNS.length)
    (count : Nat) (h : 1 ≤ count) :
    ADJECTIVES.length = 24 ∧ NOUNS.length = 24 ∧
    (generateNameOptions rand count).Nodup ∧
    1 ≤ (generateNameOptions rand count).length ∧
    (generateNameOptions rand count).length ≤ count ∧
    ∀ x ∈ generateNameOptions rand count,
      ∃ adj ∈ ADJECTIVES, ∃ nn ∈ NOUNS, x = adj ++ " " ++ nn := by
  refine ⟨rfl, rfl, ?_, ?_, ?_, ?_⟩
  · exact genLoop_nodup rand count (count * 3) 0 [] List.nodup_nil
  · unfold generateNameOptions
    obtain ⟨k, hk⟩ : ∃ k, count * 3 = k + 1 := ⟨count * 3 - 1, by omega⟩
    rw [hk]
    simp only [genLoop]
    rw [if_pos (by simpa using h)]
    have hstep : setAdd [] (generateRandomName (rand 0).1 (rand 0).2)
        = [generateRandomName (rand 0).1 (rand 0).2] := by
      simp [setAdd]
    rw [hstep]
    have := genLoop_length_ge rand count k 1 [generateRandomName (rand 0).1 (rand 0).2]
    simpa using this
  · exact genLoop_length_le rand count (count * 3) 0 [] (by simp)
  · refine genLoop_mem rand count _ (fun a nn => ?_) (count * 3) 0 [] (by simp)
    exact ⟨ADJECTIVES.get a, List.get_mem ADJECTIVES a.val a.isLt,
           NOUNS.get nn, List.get_mem NOUNS nn.val nn.isLt, rfl⟩

/-- C9 witness: with a constant random supply and the source's default
`count = 4`, the generated list is distinct and holds between 1 and 4
names. -/
theorem name_options_spec_witness :
    (generateNameOptions rand0 4).Nodup ∧
    1 ≤ (generateNameOptions rand0 4).length ∧
    (generateNameOptions rand0 4).length ≤ 4 := by
  have h := name_options_spec rand0 4 (by decide)
  exact ⟨h.2.2.1, h.2.2.2.1, h.2.2.2.2.1⟩

-- ==========================================================================
-- Message pipeline lemmas
-- ==========================================================================

/-- Every `send` either assigns the next sequence number (fresh path,
incrementing the counter) or leaves the room untouched (validation failure
or dedup hit). -/
theorem send_cases (r : Room) (mid : Nat) (text : String) (cid : Option String) :
    ((send r mid text cid).reply.ok = true ∧
     (send r mid text cid).reply.duplicate = some false ∧
     (send r mid text cid).reply.seq = some (r.seqCounter + 1) ∧
     (send r mid text cid).room.seqCounter = r.seqCounter + 1) ∨
    (((send r mid text cid).reply.ok = false ∨
      (send r mid text cid).reply.duplicate = some true) ∧
     (send r mid text cid).room = r) := by
  unfold send
  split_ifs with h1 h2 h3 h4
  · exact Or.inr ⟨Or.inl rfl, rfl⟩
  · exact Or.inr ⟨Or.inl rfl, rfl⟩
  · exact Or.inr ⟨Or.inl rfl, rfl⟩
  · exact Or.inr ⟨Or.inl rfl, rfl⟩
  · rcases cid with _ | c
    · exact Or.inl ⟨rfl, rfl, rfl, rfl⟩
    · simp only [sendDedup]
      rcases hdl : dedupLookup r.dedupIndex c with _ | s
      · exact Or.inl ⟨rfl, rfl, rfl, rfl⟩
      · exact Or.inr ⟨Or.inr rfl, rfl⟩

/-- A reply that is a fresh successful send contributes its sequence number
to the head of `newSeqs`. -/
theorem newSeqs_cons_new (rep : Reply) (rs : List Reply) (s : Nat) (hok : rep.ok = true)
    (hdup : rep.duplicate = some false) (hseq : rep.seq = some s) :
    newSeqs (rep :: rs) = s :: newSeqs rs := by
  unfold newSeqs
  rw [List.filterMap_cons, if_pos ⟨hok, hdup⟩, hseq]

/-- A failed or duplicate reply contributes nothing to `newSeqs`. -/
theorem newSeqs_cons_old (rep : Reply) (rs : List Reply)
    (h : rep.ok = false ∨ rep.duplicate = some true) :
    newSeqs (rep :: rs) = newSeqs rs := by
  have hn : ¬(rep.ok = true ∧ rep.duplicate = some false) := by
    rcases h with h | h
    · rintro ⟨h1, h2⟩
      rw [h] at h1
      cases h1
    · rintro ⟨h1, h2⟩
      rw [h] at h2
      simp at h2
  unfold newSeqs
  rw [List.filterMap_cons, if_neg hn]

/-- Replaying sends from any starting counter yields, as the new-message
sequence numbers, the consecutive range starting just above the counter. -/
theorem newSeqs_runSends (r : Room) (reqs : List SendReq) :
    newSeqs (runSends r reqs).1
      = List.range' (r.seqCounter + 1) (newSeqs (runSends r reqs).1).length := by
  induction reqs generalizing r with
  | nil => simp [runSends, newSeqs]
  | cons req rest ih =>
    simp only [runSends]
    rcases send_cases r req.memberId req.text req.clientMsgId with
      ⟨hok, hdup, hseq, hctr⟩ | ⟨hbad, hroom⟩
    · rw [newSeqs_cons_new _ _ _ hok hdup hseq]
      have ih2 := ih (send r req.memberId req.text req.clientMsgId).room
      rw [hctr] at ih2
      simp only [List.length_cons, List.range'_succ]
      exact List.cons_eq_cons.mpr ⟨rfl, ih2⟩
    · rw [newSeqs_cons_old _ _ hbad, hroom]
      exact ih r

-- ==========================================================================
-- C1: gapless sequence numbers
-- ==========================================================================

/-- C1: replaying any sequence of send operations against a fresh room
(sequence counter 0) assigns to the non-duplicate successful sends, in
order, exactly the sequence numbers `[1, …, N]` — so the set is `{1..N}`
with no gaps or duplicates, the first is 1 and each later one is strictly
greater than its predecessor. -/
theorem seq_gapless (r : Room) (reqs : List SendReq) (h : r.seqCounter = 0) :
    newSeqs (runSends r reqs).1
      = List.range' 1 (newSeqs (runSends r reqs).1).length := by
  have hrun := newSeqs_runSends r reqs
  rw [h] at hrun
  simpa using hrun

/-- C1 witness: the demo workload (a plain send, an idempotent send, its
duplicate retry and a blank send) is assigned exactly the sequence numbers
`[1, 2]`. -/
theorem seq_gapless_witness :
    newSeqs (runSends demoRoom demoReqs).1
      = List.range' 1 (newSeqs (runSends demoRoom demoReqs).1).length ∧
    newSeqs (runSends demoRoom demoReqs).1 = [1, 2] :=
  ⟨seq_gapless demoRoom demoReqs rfl, by decide⟩

-- ==========================================================================
-- C3: idempotent duplicate sends
-- ==========================================================================

/-- A fresh clientMsgId is found in the dedup index once the fresh path has
recorded it, resolving to the assigned sequence number. -/
theorem dedupLookup_after_record (l : List (String × Nat)) (c : String) (s : Nat)
    (h : dedupLookup l c = none) :
    dedupLookup (l ++ [(c, s)]) c = some s := by
  unfold dedupLookup at h ⊢
  have hnone : l.find? (fun p => decide (p.1 = c)) = none := Option.map_eq_none'.mp h
  rw [List.find?_append, hnone, Option.none_or]
  rw [List.find?_cons_of_pos _ (by simp)]
  rfl

/-- C3: sending twice with the same clientMsgId and member yields the same
`seq`; the second call replies `ok:true` with `duplicate=true`, leaves the
room state (sequence counter, recent history, dedup index) exactly as after
the first call, and broadcasts nothing. -/
theorem send_idempotent (r : Room) (mid : Nat) (text1 text2 c : String)
    (hatt : memberAttachedB r mid = true) (hst : r.status = Status.chatting)
    (hb1 : isBlank text1 = false) (hl1 : text1.length ≤ TEXT_MAX)
    (hb2 : isBlank text2 = false) (hl2 : text2.length ≤ TEXT_MAX)
    (hfresh : dedupLookup r.dedupIndex c = none) :
    (send r mid text1 (some c)).reply.ok = true ∧
    (send r mid text1 (some c)).reply.duplicate = some false ∧
    (send (send r mid text1 (some c)).room mid text2 (some c)).reply.ok = true ∧
    (send (send r mid text1 (some c)).room mid text2 (some c)).reply.duplicate = some true ∧
    (send (send r mid text1 (some c)).room mid text2 (some c)).reply.seq
      = (send r mid text1 (some c)).reply.seq ∧
    (send (send r mid text1 (some c)).room mid text2 (some c)).room
      = (send r mid text1 (some c)).room ∧
    (send (send r mid text1 (some c)).room mid text2 (some c)).broadcasts = [] := by
  have e1 : send r mid text1 (some c) = sendFresh r mid text1 (some c) := by
    unfold send
    rw [if_neg (by simp [hatt]), if_neg (by simp [hst]), if_neg (by simp [hb1]),
        if_neg (by omega)]
    simp [sendDedup, hfresh]
  have hatt2 : memberAttachedB (sendFresh r mid text1 (some c)).room mid = true := by
    simpa [memberAttachedB, sendFresh] using hatt
  have hst2 : (sendFresh r mid text1 (some c)).room.status = Status.chatting := by
    simpa [sendFresh] using hst
  have hlk2 : dedupLookup (sendFresh r mid text1 (some c)).room.dedupIndex c
      = some (r.seqCounter + 1) := by
    have hrec := dedupLookup_after_record r.dedupIndex c (r.seqCounter + 1) hfresh
    simpa [sendFresh] using hrec
  have e2 : send (sendFresh r mid text1 (some c)).room mid text2 (some c)
      = ⟨Reply.okSend (r.seqCounter + 1) true, (sendFresh r mid text1 (some c)).room, []⟩ := by
    unfold send
    rw [if_neg (by simp [hatt2]), if_neg (by simp [hst2]), if_neg (by simp [hb2]),
        if_neg (by omega)]
    simp [sendDedup, hlk2]
  rw [e1, e2]
  exact ⟨rfl, rfl, rfl, rfl, rfl, rfl, rfl⟩

/-- C3 witness: the smoke test's idempotent send pair against the demo room:
the retry is flagged `duplicate=true`, returns the same `seq`, leaves the
room exactly as after the first send and broadcasts nothing. -/
theorem send_idempotent_witness :
    (send (send demoRoom 0 "Idempotent message" (some "smoke-1")).room 0
        "Idempotent message duplicate" (some "smoke-1")).reply.duplicate = some true ∧
    (send (send demoRoom 0 "Idempotent message" (some "smoke-1")).room 0
        "Idempotent message duplicate" (some "smoke-1")).reply.seq
      = (send demoRoom 0 "Idempotent message" (some "smoke-1")).reply.seq ∧
    (send (send demoRoom 0 "Idempotent message" (some "smoke-1")).room 0
        "Idempotent message duplicate" (some "smoke-1")).room
      = (send demoRoom 0 "Idempotent message" (some "smoke-1")).room ∧
    (send (send demoRoom 0 "Idempotent message" (some "smoke-1")).room 0
        "Idempotent message duplicate" (some "smoke-1")).broadcasts = [] := by
  have h := send_idempotent demoRoom 0 "Idempotent message" "Idempotent message duplicate"
    "smoke-1" (by decide) rfl (by decide) (by decide) (by decide) (by decide) rfl
  exact ⟨h.2.2.2.1, h.2.2.2.2.1, h.2.2.2.2.2.1, h.2.2.2.2.2.2⟩

-- ==========================================================================
-- C8: send validation failures mutate nothing
-- ==========================================================================

/-- C8: for an attached member of a chatting room, a text that trims to
empty fails with `MessageEmpty` and a non-blank text above the 2000
character bound fails with `MessageTooLong`; in both cases the whole result
is an `ok:false` reply with the room unchanged (sequence counter, recent
history and dedup index included) and no broadcast. -/
theorem send_validation (r : Room) (mid : Nat) (text : String) (cid : Option String)
    (hatt : memberAttachedB r mid = true) (hst : r.status = Status.chatting) :
    (isBlank text = true →
      send r mid text cid = ⟨Reply.mkErr "MessageEmpty", r, []⟩) ∧
    (isBlank text = false → TEXT_MAX < text.length →
      send r mid text cid = ⟨Reply.mkErr "MessageTooLong", r, []⟩) := by
  constructor
  · intro hb
    unfold send
    rw [if_neg (by simp [hatt]), if_neg (by simp [hst]), if_pos hb]
  · intro hb hlen
    unfold send
    rw [if_neg (by simp [hatt]), if_neg (by simp [hst]), if_neg (by simp [hb]),
        if_pos hlen]

/-- C8 witness: against the demo room, the empty text fails `MessageEmpty`
and the 2001-character text fails `MessageTooLong`, each leaving the room
untouched. -/
theorem send_validation_witness :
    send demoRoom 0 "" none = ⟨Reply.mkErr "MessageEmpty", demoRoom, []⟩ ∧
    send demoRoom 0 longText none = ⟨Reply.mkErr "MessageTooLong", demoRoom, []⟩ := by
  constructor
  · exact (send_validation demoRoom 0 "" none (by decide) rfl).1 (by decide)
  · refine (send_validation demoRoom 0 longText none (by decide) rfl).2 ?_ ?_
    · decide
    · show TEXT_MAX < longText.length
      have hlen : longText.length = 2001 := by
        simp only [longText, String.length, List.length_replicate]
      rw [hlen, TEXT_MAX]
      omega

-- ==========================================================================
-- C4: one-way lifecycle
-- ==========================================================================

/-- Every status sits at or below `closed` in the lifecycle order. -/
theorem statusRank_le_two (s : Status) : statusRank s ≤ 2 := by
  cases s <;> simp [statusRank]

/-- C4: the room status only ever moves forward along
`waiting → chatting → closed` under every directed call and every rejoin;
once closed, every join fails (with the `RoomClosed` reason whenever the
name passes validation), every send fails, and every rejoin fails with the
closure reason. -/
theorem status_monotone :
    (∀ (r : Room) (c : Call), statusRank r.status ≤ statusRank (applyCall r c).room.status) ∧
    (∀ (r : Room) (rid : String) (mid : Nat), (rejoin r rid mid).2.status = r.status) ∧
    (∀ (r : Room) (n a : String) (ic : Bool), r.status = Status.closed →
      (join r n a ic).reply.ok = false) ∧
    (∀ (r : Room) (n a : String) (ic : Bool), r.status = Status.closed →
      n.length ≤ NAME_MAX → (join r n a ic).reply.error = some "RoomClosed") ∧
    (∀ (r : Room) (mid : Nat) (text : String) (cid : Option String),
      r.status = Status.closed → (send r mid text cid).reply.ok = false) ∧
    (∀ (r : Room) (rid : String) (mid : Nat), r.status = Status.closed →
      (rejoin r rid mid).1 = RejoinEvent.rejoinFailed "RoomClosedOrExpired") := by
  refine ⟨?_, ?_, ?_, ?_, ?_, ?_⟩
  · intro r c
    rcases c with ⟨n, a, ic⟩ | cal | ⟨cal, reason⟩ | ⟨cal, t⟩ | ⟨cal, t⟩ | ⟨mid, t, cid⟩
    · simp only [applyCall]
      unfold join
      split_ifs <;> simp
    · simp only [applyCall]
      unfold start
      split_ifs with g1 g2
      · simp
      · simp
      · have hw : r.status = Status.waiting := not_not.mp g2
        simp [hw, statusRank]
    · simp only [applyCall]
      unfold close
      split_ifs with g1 g2
      · simp
      · simp
      · simpa [statusRank] using statusRank_le_two r.status
    · simp only [applyCall]
      unfold promote
      split_ifs <;> simp
    · simp only [applyCall]
      unfold kick
      split_ifs <;> simp
    · simp only [applyCall]
      unfold send
      split_ifs <;> try simp
      rcases cid with _ | cl
      · simp [sendDedup, sendFresh]
      · rcases hdl : dedupLookup r.dedupIndex cl with _ | s <;>
          simp [sendDedup, sendFresh, hdl]
  · intro r rid mid
    unfold rejoin
    split_ifs <;> simp
  · intro r n a ic h
    unfold join
    by_cases g1 : NAME_MAX < n.length
    · rw [if_pos g1]
      rfl
    · rw [if_neg g1, if_pos h]
      rfl
  · intro r n a ic h hn
    unfold join
    rw [if_neg (by omega), if_pos h]
    rfl
  · intro r mid text cid h
    unfold send
    split_ifs with g1 g2 g3 g4
    · rfl
    · rfl
    · exact absurd (not_not.mp g2) (by rw [h]; decide)
    · exact absurd (not_not.mp g2) (by rw [h]; decide)
    · exact absurd (not_not.mp g2) (by rw [h]; decide)
  · intro r rid mid h
    unfold rejoin
    rw [if_pos h]

/-- C4 witness: against a closed room, a valid-name join fails with the
`RoomClosed` reason, a send fails, and a rejoin fails with the closure
reason. -/
theorem status_monotone_witness :
    (join closedRoom "LateJoiner" "g" false).reply.ok = false ∧
    (join closedRoom "LateJoiner" "g" false).reply.error = some "RoomClosed" ∧
    (send closedRoom 0 "Test" none).reply.ok = false ∧
    (rejoin closedRoom "room-1" 0).1 = RejoinEvent.rejoinFailed "RoomClosedOrExpired" :=
  ⟨status_monotone.2.2.1 closedRoom "LateJoiner" "g" false rfl,
   status_monotone.2.2.2.1 closedRoom "LateJoiner" "g" false rfl (by decide),
   status_monotone.2.2.2.2.1 closedRoom 0 "Test" none rfl,
   status_monotone.2.2.2.2.2 closedRoom "room-1" 0 rfl⟩

-- ==========================================================================
-- C5: reconnection protocol
-- ==========================================================================

/-- Mapping an id-preserving function over the registry leaves the id list
unchanged. -/
theorem idsOf_map_of_id_preserved (l : List Member) (f : Member → Member)
    (hf : ∀ m, (f m).id = m.id) : idsOf (l.map f) = idsOf l := by
  induction l with
  | nil => rfl
  | cons m tl ih =>
    simp only [idsOf, List.map_cons] at ih ⊢
    rw [hf m]
    exact List.cons_eq_cons.mpr ⟨rfl, ih⟩

/-- C5: rejoin never creates or removes a member (the id list is always
preserved); with the room open and the member id known, the caller is
reattached to that member and receives `room:joined` carrying the room id
and the recent history; with the room closed, or the member id unknown, the
caller receives `room:rejoin-failed` with, respectively, the closure reason
or the not-found reason — and the two reasons are distinct. -/
theorem rejoin_spec (r : Room) (rid : String) (mid : Nat) :
    idsOf (rejoin r rid mid).2.members = idsOf r.members ∧
    (r.status ≠ Status.closed → hasMember r mid = true →
      (rejoin r rid mid).1 = RejoinEvent.joined rid r.recentHistory ∧
      memberAttachedB (rejoin r rid mid).2 mid = true) ∧
    (r.status = Status.closed →
      (rejoin r rid mid).1 = RejoinEvent.rejoinFailed "RoomClosedOrExpired") ∧
    (r.status ≠ Status.closed → hasMember r mid = false →
      (rejoin r rid mid).1 = RejoinEvent.rejoinFailed "MemberNotFound") ∧
    ("RoomClosedOrExpired" : String) ≠ "MemberNotFound" := by
  refine ⟨?_, ?_, ?_, ?_, by decide⟩
  · unfold rejoin
    split_ifs with g1 g2
    · rfl
    · exact idsOf_map_of_id_preserved r.members _
        (fun m => by by_cases hm : m.id = mid <;> simp [hm])
    · rfl
  · intro hcl hmem
    have hex : ∃ m ∈ r.members, m.id = mid := by
      simpa [hasMember, List.any_eq_true] using hmem
    obtain ⟨m, hm, hid⟩ := hex
    unfold rejoin
    rw [if_neg hcl, if_pos hmem]
    refine ⟨rfl, ?_⟩
    show List.any (List.map (fun m => if m.id = mid then { m with attached := true } else m)
        r.members) (fun m => decide (m.id = mid ∧ m.attached = true)) = true
    apply List.any_eq_true.mpr
    refine ⟨if m.id = mid then { m with attached := true } else m,
      List.mem_map_of_mem _ hm, ?_⟩
    rw [if_pos hid]
    simp [hid]
  · intro hcl
    unfold rejoin
    rw [if_pos hcl]
  · intro hcl hno
    unfold rejoin
    rw [if_neg hcl, if_neg (by simp [hno])]

/-- C5 witness: rejoining the demo room with the known member id 0 yields
`room:joined` with the recent history and reattaches the member; rejoining a
closed room fails with the closure reason; rejoining with the fabricated
member id 9 fails with the not-found reason. -/
theorem rejoin_spec_witness :
    (rejoin demoRoom "room-1" 0).1 = RejoinEvent.joined "room-1" demoRoom.recentHistory ∧
    memberAttachedB (rejoin demoRoom "room-1" 0).2 0 = true ∧
    (rejoin closedRoom "room-1" 0).1 = RejoinEvent.rejoinFailed "RoomClosedOrExpired" ∧
    (rejoin demoRoom "room-1" 9).1 = RejoinEvent.rejoinFailed "MemberNotFound" :=
  ⟨((rejoin_spec demoRoom "room-1" 0).2.1 (by decide) (by decide)).1,
   ((rejoin_spec demoRoom "room-1" 0).2.1 (by decide) (by decide)).2,
   (rejoin_spec closedRoom "room-1" 0).2.2.1 rfl,
   (rejoin_spec demoRoom "room-1" 9).2.2.2.1 (by decide) (by decide)⟩

-- ==========================================================================
-- C2: admin uniqueness invariant
-- ==========================================================================

/-- A promote's role reassignment never changes a member's id. -/
theorem promoteMap_id (caller target : Nat) (m : Member) :
    (promoteMap caller target m).id = m.id := by
  unfold promoteMap
  split_ifs <;> rfl

/-- When every admin member carries the caller's id, the members holding the
admin role after a promote's role reassignment are exactly those carrying
the target's id. -/
theorem countP_promote (l : List Member) (caller target : Nat)
    (honly : ∀ m ∈ l, m.role = Role.admin → m.id = caller) :
    (l.map (promoteMap caller target)).countP (fun m => decide (m.role = Role.admin))
      = l.countP (fun m => decide (m.id = target)) := by
  induction l with
  | nil => rfl
  | cons m tl ih =>
    have htl : ∀ x ∈ tl, x.role = Role.admin → x.id = caller :=
      fun x hx => honly x (List.mem_cons_of_mem m hx)
    simp only [List.map_cons, List.countP_cons]
    rw [ih htl]
    congr 1
    by_cases ht : m.id = target
    · have hpm : promoteMap caller target m = { m with role := Role.admin } := by
        unfold promoteMap
        rw [if_pos ht]
      rw [hpm]
      simp [ht]
    · by_cases hc : m.id = caller
      · have hpm : promoteMap caller target m = { m with role := Role.participant } := by
          unfold promoteMap
          rw [if_neg ht, if_pos hc]
        rw [hpm]
        simp [ht]
      · have hnadm : ¬ m.role = Role.admin :=
          fun hadm => hc (honly m (List.mem_cons_self m tl) hadm)
        have hpm : promoteMap caller target m = m := by
          unfold promoteMap
          rw [if_neg ht, if_neg hc]
        rw [hpm]
        simp [ht, hnadm]

/-- A role-preserving registry rewrite leaves the admin count unchanged. -/
theorem countP_admin_map_role_preserved (l : List Member) (f : Member → Member)
    (hf : ∀ m, (f m).role = m.role) :
    (l.map f).countP (fun m => decide (m.role = Role.admin))
      = l.countP (fun m => decide (m.role = Role.admin)) := by
  induction l with
  | nil => rfl
  | cons m tl ih =>
    simp only [List.map_cons, List.countP_cons]
    rw [ih, hf m]

/-- `join` preserves the room invariant. -/
theorem roomInv_join (r : Room) (n a : String) (ic : Bool) (h : RoomInv r) :
    RoomInv (join r n a ic).room := by
  obtain ⟨h1, h2, h3, h4⟩ := h
  unfold join
  by_cases g1 : NAME_MAX < n.length
  · rw [if_pos g1]
    exact ⟨h1, h2, h3, h4⟩
  · rw [if_neg g1]
    by_cases g2 : r.status = Status.closed
    · rw [if_pos g2]
      exact ⟨h1, h2, h3, h4⟩
    · rw [if_neg g2]
      refine ⟨?_, ?_, ?_, ?_⟩
      · show List.countP (fun m => decide (m.role = Role.admin))
          (r.members ++ [⟨r.nextId, n, a, joinRole r ic, true⟩]) ≤ 1
        rw [List.countP_append]
        have hsing : List.countP (fun m => decide (m.role = Role.admin))
            [(⟨r.nextId, n, a, joinRole r ic, true⟩ : Member)]
            = if joinRole r ic = Role.admin then 1 else 0 := by
          simp [List.countP_cons]
        rw [hsing]
        by_cases hadm : joinRole r ic = Role.admin
        · rw [if_pos hadm]
          have hz : List.countP (fun m => decide (m.role = Role.admin)) r.members = 0 := by
            unfold joinRole at hadm
            by_cases hcond : ic = true ∧ adminCount r = 0
            · exact hcond.2
            · rw [if_neg hcond] at hadm
              cases hadm
          omega
        · rw [if_neg hadm]
          have := h1
          unfold adminCount at this
          omega
      · intro hcl
        exact absurd hcl g2
      · show (idsOf (r.members ++ [⟨r.nextId, n, a, joinRole r ic, true⟩])).Nodup
        unfold idsOf at h3 ⊢
        rw [List.map_append, List.nodup_append]
        refine ⟨h3, List.nodup_singleton _, ?_⟩
        intro x hx hy
        simp only [List.map_cons, List.map_nil, List.mem_singleton] at hy
        obtain ⟨m, hm, hxm⟩ := List.mem_map.mp hx
        subst hy
        have := h4 m hm
        omega
      · intro m hm
        rcases List.mem_append.mp hm with hold | hnew
        · have := h4 m hold
          show m.id < r.nextId + 1
          omega
        · simp only [List.mem_singleton] at hnew
          subst hnew
          exact Nat.lt_succ_self _

/-- `start` preserves the room invariant. -/
theorem roomInv_start (r : Room) (caller : Nat) (h : RoomInv r) :
    RoomInv (start r caller).room := by
  obtain ⟨h1, h2, h3, h4⟩ := h
  unfold start
  split_ifs with g1 g2
  · exact ⟨h1, h2, h3, h4⟩
  · exact ⟨h1, h2, h3, h4⟩
  · refine ⟨h1, ?_, h3, h4⟩
    intro hcl
    exact Status.noConfusion hcl

/-- `close` preserves the room invariant. -/
theorem roomInv_close (r : Room) (caller : Nat) (reason : String) (h : RoomInv r) :
    RoomInv (close r caller reason).room := by
  obtain ⟨h1, h2, h3, h4⟩ := h
  unfold close
  split_ifs with g1 g2
  · exact ⟨h1, h2, h3, h4⟩
  · exact ⟨h1, h2, h3, h4⟩
  · refine ⟨?_, ?_, ?_, ?_⟩
    · show List.countP (fun m => decide (m.role = Role.admin)) ([] : List Member) ≤ 1
      simp [List.countP_nil]
    · intro _
      rfl
    · exact List.nodup_nil
    · intro m hm
      exact absurd hm (List.not_mem_nil m)

/-- `promote` preserves the room invariant. -/
theorem roomInv_promote (r : Room) (caller target : Nat) (h : RoomInv r) :
    RoomInv (promote r caller target).room := by
  obtain ⟨h1, h2, h3, h4⟩ := h
  unfold promote
  split_ifs with g1 g2
  · exact ⟨h1, h2, h3, h4⟩
  · exact ⟨h1, h2, h3, h4⟩
  · have hadm : isAdmin r caller = true := by
      cases hia : isAdmin r caller
      · exact absurd hia g1
      · rfl
    obtain ⟨mc, hmc, hmcid, hmcadm⟩ :
        ∃ mc ∈ r.members, mc.id = caller ∧ mc.role = Role.admin := by
      simpa [isAdmin, List.any_eq_true] using hadm
    have honly : ∀ m ∈ r.members, m.role = Role.admin → m.id = caller := by
      intro m hm hmadm
      have := admin_id_unique r.members h1 mc hmc hmcadm m hm hmadm
      rw [this, hmcid]
    refine ⟨?_, ?_, ?_, ?_⟩
    · show List.countP (fun m => decide (m.role = Role.admin))
        (r.members.map (promoteMap caller target)) ≤ 1
      rw [countP_promote r.members caller target honly]
      exact countP_id_le_one r.members target h3
    · intro hcl
      show r.members.map (promoteMap caller target) = []
      rw [h2 hcl]
      rfl
    · show (idsOf (r.members.map (promoteMap caller target))).Nodup
      rw [idsOf_map_of_id_preserved r.members _ (promoteMap_id caller target)]
      exact h3
    · intro m hm
      obtain ⟨x, hx, hfx⟩ := List.mem_map.mp hm
      have hid : m.id = x.id := by
        rw [← hfx]
        exact promoteMap_id caller target x
      show m.id < r.nextId
      rw [hid]
      exact h4 x hx

/-- `kick` preserves the room invariant. -/
theorem roomInv_kick (r : Room) (caller target : Nat) (h : RoomInv r) :
    RoomInv (kick r caller target).room := by
  obtain ⟨h1, h2, h3, h4⟩ := h
  unfold kick
  split_ifs with g1 g2
  · exact ⟨h1, h2, h3, h4⟩
  · exact ⟨h1, h2, h3, h4⟩
  · refine ⟨?_, ?_, ?_, ?_⟩
    · show List.countP (fun m => decide (m.role = Role.admin))
        (r.members.filter (fun m => decide (m.id ≠ target))) ≤ 1
      exact le_trans (List.Sublist.countP_le _ (List.filter_sublist r.members)) h1
    · intro hcl
      show r.members.filter (fun m => decide (m.id ≠ target)) = []
      rw [h2 hcl]
      rfl
    · show (idsOf (r.members.filter (fun m => decide (m.id ≠ target)))).Nodup
      unfold idsOf at h3 ⊢
      exact List.Nodup.sublist ((List.filter_sublist r.members).map Member.id) h3
    · intro m hm
      exact h4 m (List.mem_of_mem_filter hm)

/-- `send` preserves the room invariant (it never touches membership or
status). -/
theorem roomInv_send (r : Room) (mid : Nat) (text : String) (cid : Option String)
    (h : RoomInv r) : RoomInv (send r mid text cid).room := by
  obtain ⟨h1, h2, h3, h4⟩ := h
  unfold send
  split_ifs
  · exact ⟨h1, h2, h3, h4⟩
  · exact ⟨h1, h2, h3, h4⟩
  · exact ⟨h1, h2, h3, h4⟩
  · exact ⟨h1, h2, h3, h4⟩
  · rcases cid with _ | c
    · exact ⟨h1, h2, h3, h4⟩
    · simp only [sendDedup]
      rcases hdl : dedupLookup r.dedupIndex c with _ | s
      · exact ⟨h1, h2, h3, h4⟩
      · exact ⟨h1, h2, h3, h4⟩

/-- `rejoin` preserves the room invariant (it only flips a connection
flag). -/
theorem roomInv_rejoin (r : Room) (rid : String) (mid : Nat) (h : RoomInv r) :
    RoomInv (rejoin r rid mid).2 := by
  obtain ⟨h1, h2, h3, h4⟩ := h
  unfold rejoin
  split_ifs with g1 g2
  · exact ⟨h1, h2, h3, h4⟩
  · refine ⟨?_, ?_, ?_, ?_⟩
    · show List.countP (fun m => decide (m.role = Role.admin))
        (r.members.map (fun m => if m.id = mid then { m with attached := true } else m)) ≤ 1
      rw [countP_admin_map_role_preserved r.members _
        (fun m => by by_cases hm : m.id = mid <;> simp [hm])]
      exact h1
    · intro hcl
      exact absurd hcl g1
    · show (idsOf (r.members.map (fun m => if m.id = mid then { m with attached := true } else m))).Nodup
      rw [idsOf_map_of_id_preserved r.members _
        (fun m => by by_cases hm : m.id = mid <;> simp [hm])]
      exact h3
    · intro m hm
      obtain ⟨x, hx, hfx⟩ := List.mem_map.mp hm
      have hid : m.id = x.id := by
        rw [← hfx]
        by_cases hxm : x.id = mid <;> simp [hxm]
      show m.id < r.nextId
      rw [hid]
      exact h4 x hx
  · exact ⟨h1, h2, h3, h4⟩

/-- Every reachable room state satisfies the room invariant. -/
theorem reachable_inv (r : Room) (h : Reachable r) : RoomInv r := by
  induction h with
  | init => exact ⟨by decide, by decide, by decide, by decide⟩
  | stepCall r c hr ih =>
    rcases c with ⟨n, a, ic⟩ | cal | ⟨cal, reason⟩ | ⟨cal, t⟩ | ⟨cal, t⟩ | ⟨mid, t, cid⟩
    · exact roomInv_join r n a ic ih
    · exact roomInv_start r cal ih
    · exact roomInv_close r cal reason ih
    · exact roomInv_promote r cal t ih
    · exact roomInv_kick r cal t ih
    · exact roomInv_send r mid t cid ih
  | stepRejoin r rid mid hr ih => exact roomInv_rejoin r rid mid ih

/-- C2 counterexample: the freshly provisioned room is reachable and not
closed, yet has zero admins (no member at all), refuting "exactly one member
has role = admin while the room is not closed". -/
theorem admin_exactly_one_counterexample :
    Reachable roomInit ∧ roomInit.status ≠ Status.closed ∧ adminCount roomInit = 0 :=
  ⟨Reachable.init, by decide, by decide⟩

/-- C2 (amended): for every reachable room state, at most one member has
role = admin, and zero once the room is closed; every operation preserves
this; and a successful promote is a transfer, not an addition: afterwards
the target is the admin, the caller (when distinct from the target) is a
participant, and the admin count is exactly one. -/
theorem admin_uniqueness (r : Room) (h : Reachable r) :
    adminCount r ≤ 1 ∧
    (r.status = Status.closed → adminCount r = 0) ∧
    (∀ caller target, isAdmin r caller = true → hasMember r target = true →
      adminCount (promote r caller target).room = 1 ∧
      (∀ m, m ∈ (promote r caller target).room.members →
        (m.id = target → m.role = Role.admin) ∧
        (m.id = caller → m.id ≠ target → m.role = Role.participant))) := by
  obtain ⟨h1, h2, h3, h4⟩ := reachable_inv r h
  refine ⟨h1, ?_, ?_⟩
  · intro hcl
    unfold adminCount
    rw [h2 hcl]
    rfl
  · intro caller target hadm htgt
    unfold promote
    rw [if_neg (by simp [hadm]), if_neg (by simp [htgt])]
    obtain ⟨mc, hmc, hmcid, hmcadm⟩ :
        ∃ mc ∈ r.members, mc.id = caller ∧ mc.role = Role.admin := by
      simpa [isAdmin, List.any_eq_true] using hadm
    have honly : ∀ m ∈ r.members, m.role = Role.admin → m.id = caller := by
      intro m hm hmadm
      have := admin_id_unique r.members h1 mc hmc hmcadm m hm hmadm
      rw [this, hmcid]
    constructor
    · show List.countP (fun m => decide (m.role = Role.admin))
        (r.members.map (promoteMap caller target)) = 1
      rw [countP_promote r.members caller target honly]
      apply countP_id_eq_one r.members target h3
      simpa [hasMember, List.any_eq_true] using htgt
    · intro m hm
      obtain ⟨x, hx, hfx⟩ := List.mem_map.mp hm
      have hxm : x.id = m.id :=
        (promoteMap_id caller target x).symm.trans (congrArg Member.id hfx)
      constructor
      · intro hmt
        have hxid : x.id = target := hxm.trans hmt
        rw [← hfx]
        unfold promoteMap
        rw [if_pos hxid]
      · intro hmc2 hmnt
        have hxid : x.id = caller := hxm.trans hmc2
        have hxnt : ¬ x.id = target := fun hcon => hmnt (hxm.symm.trans hcon)
        rw [← hfx]
        unfold promoteMap
        rw [if_neg hxnt, if_pos hxid]

/-- C2 witness: after the creator and one participant joined the fresh room
(a reachable state), the admin count is at most one, and promoting member 1
leaves exactly one admin. -/
theorem admin_uniqueness_witness :
    adminCount roomAB ≤ 1 ∧ adminCount (promote roomAB 0 1).room = 1 := by
  have hre : Reachable roomAB :=
    Reachable.stepCall roomA (Call.join "MemberUser" "person" false)
      (Reachable.stepCall roomInit (Call.join "AdminUser" "crown" true) Reachable.init)
  have h := admin_uniqueness roomAB hre
  exact ⟨h.1, (h.2.2 0 1 (by decide) (by decide)).1⟩

end ChitChat
